import Mathlib

/-!
Verification of the LeetGraph recommendation/scoring engine.

Shallow embedding of the core logic found in `src/src-tauri/src/pedagogy.rs`,
`src/src-tauri/src/repository.rs` and `src/src-tauri/src/constants.rs`.
Floating-point values (`f64`) are modelled as rationals, SQLite tables as
lists of rows, and the `rusqlite::Connection` as an explicit `Db` value that
is threaded through every operation.  The repository contains two divergent
revisions of the same logic (an older copy inside `main.rs`); the claims and
the spec treat the richer `pedagogy.rs`/`repository.rs` revision as
authoritative, and that is the one embedded here.
-/

namespace LeetGraph

/-! Constants, from `src/src-tauri/src/constants.rs`. -/

def DAY_SECONDS : ℤ := 86400
def EXPECTED_TIME_EASY : ℚ := 10
def EXPECTED_TIME_MEDIUM : ℚ := 25
def EXPECTED_TIME_HARD : ℚ := 45

def ALPHA : ℚ := 15/100
def INTERVAL_MIN : ℚ := 1
def INTERVAL_MAX : ℚ := 180

def EASE_FACTOR_MIN : ℚ := 13/10
def EASE_FACTOR_MAX : ℚ := 5
def EASE_FACTOR_DEFAULT : ℚ := 5/2

def EASE_FACTOR_DECREMENT_FAIL : ℚ := 20/100
def EASE_FACTOR_DECREMENT_STRUGGLE : ℚ := 15/100
def EASE_FACTOR_INCREMENT_CLEAN : ℚ := 15/100
def EASE_FACTOR_INCREMENT_SPEED : ℚ := 15/100
def EASE_FACTOR_NEUTRAL_GRIT : ℚ := 5/100

def INTERVAL_NEW_GRIT : ℚ := 2
def INTERVAL_NEW_CLEAN : ℚ := 4
def INTERVAL_MULTIPLIER_STRUGGLE : ℚ := 7/10
def INTERVAL_MULTIPLIER_SPEED : ℚ := 12/10

def MASTERY_UNLOCK_THRESHOLD : ℚ := 7/10
def MASTERY_CONSOLIDATION_THRESHOLD : ℚ := 9/10
def ATTEMPTS_CONSOLIDATION_THRESHOLD : ℤ := 2

def DIFFICULTY_MULTIPLIER_EASY : ℚ := 8/10
def DIFFICULTY_MULTIPLIER_MEDIUM : ℚ := 12/10
def DIFFICULTY_MULTIPLIER_HARD : ℚ := 15/10

def PERFORMANCE_MULTIPLIER_FAIL : ℚ := 0
def PERFORMANCE_MULTIPLIER_NEW_GRIT : ℚ := 12/10
def PERFORMANCE_MULTIPLIER_NEW_CLEAN : ℚ := 1
def PERFORMANCE_MULTIPLIER_REVIEW : ℚ := 3/10

/-! Data model, from `src/src-tauri/src/models.rs` (the `pedagogy.rs`
revision of `AttemptLog` carries the `revealed_skills` flag). -/

inductive Difficulty
  | Easy
  | Medium
  | Hard
deriving DecidableEq, Repr

/-- `Difficulty::from_str` composed with the caller's `unwrap_or(Medium)`:
every unrecognised string falls back to `Medium`. -/
def Difficulty.fromStr (s : String) : Difficulty :=
  if s = "Easy" then .Easy
  else if s = "Medium" then .Medium
  else if s = "Hard" then .Hard
  else .Medium

/-- Expected time table used by both updaters (minutes). -/
def expected_time (d : Difficulty) : ℚ :=
  match d with
  | .Easy => EXPECTED_TIME_EASY
  | .Medium => EXPECTED_TIME_MEDIUM
  | .Hard => EXPECTED_TIME_HARD

def difficulty_multiplier (d : Difficulty) : ℚ :=
  match d with
  | .Easy => DIFFICULTY_MULTIPLIER_EASY
  | .Medium => DIFFICULTY_MULTIPLIER_MEDIUM
  | .Hard => DIFFICULTY_MULTIPLIER_HARD

structure AttemptLog where
  problem_id : ℤ
  time_minutes : ℚ
  solved : Bool
  read_solution : Bool
  revealed_skills : Bool
deriving DecidableEq, Repr

structure ProblemRepetitionState where
  problem_id : ℤ
  ease_factor : ℚ
  interval_days : ℚ
  next_review_ts : ℤ
deriving DecidableEq, Repr

structure SkillMasteryState where
  skill_id : ℤ
  mastery : ℚ
  attempts : ℤ
deriving DecidableEq, Repr

/-! Table rows, mirroring the schema created in `database.rs`. -/

structure ProblemRow where
  id : ℤ
  slug : String
  title : String
  url : String
  difficulty : String
deriving DecidableEq, Repr

structure ProblemSkillRow where
  problem_id : ℤ
  skill_id : ℤ
deriving DecidableEq, Repr

structure TrackProblemRow where
  track_id : ℤ
  problem_id : ℤ
deriving DecidableEq, Repr

structure AlternativeRow where
  id : ℤ
  parent_id : ℤ
deriving DecidableEq, Repr

structure AttemptRow where
  problem_id : ℤ
  time_minutes : ℚ
  solved : Bool
  read_solution : Bool
  timestamp : ℤ
deriving DecidableEq, Repr

structure SkillStateRow where
  skill_id : ℤ
  mastery : ℚ
  attempts : ℤ
deriving DecidableEq, Repr

/-- The persistent store: one list per SQLite table touched by the core. -/
structure Db where
  skills : List ℤ
  skill_prereqs : List (ℤ × ℤ)
  problems : List ProblemRow
  problem_skills : List ProblemSkillRow
  track_problems : List TrackProblemRow
  alternatives : List AlternativeRow
  attempts : List AttemptRow
  problem_state : List ProblemRepetitionState
  skill_state : List SkillStateRow
deriving DecidableEq, Repr

/-! Repository operations, from `src/src-tauri/src/repository.rs`.  Each is
the relational meaning of the corresponding SQL statement; `query_row`
returns the first matching row, modelled with `List.find?`. -/

/-- `repository::get_skill_state`: row lookup with a 0.0/0 default when the
row is missing (the `or_else` arm). -/
def get_skill_state (db : Db) (skill_id : ℤ) : SkillMasteryState :=
  match db.skill_state.find? (fun r => r.skill_id == skill_id) with
  | some r => { skill_id := skill_id, mastery := r.mastery, attempts := r.attempts }
  | none => { skill_id := skill_id, mastery := 0, attempts := 0 }

/-- `repository::resolve_parent_id`: returns `(parent_id, true)` when the id
appears in the `alternatives` table, `(id, false)` otherwise. -/
def resolve_parent_id (db : Db) (problem_id : ℤ) : ℤ × Bool :=
  match db.alternatives.find? (fun a => a.id == problem_id) with
  | some a => (a.parent_id, true)
  | none => (problem_id, false)

/-- `repository::update_skill_state`: SQL `UPDATE ... WHERE skill_id = ?`,
rewriting every row with the matching key and inserting nothing. -/
def update_skill_state (db : Db) (st : SkillMasteryState) : Db :=
  { db with skill_state := db.skill_state.map (fun r =>
      if r.skill_id == st.skill_id then
        { r with mastery := st.mastery, attempts := st.attempts }
      else r) }

/-- `repository::get_problem_repetition_state`: row lookup defaulting to
ease 2.5 / interval 0.0; `next_review_ts` is zeroed because save overwrites
it. -/
def get_problem_repetition_state (db : Db) (problem_id : ℤ) :
    ProblemRepetitionState :=
  match db.problem_state.find? (fun r => r.problem_id == problem_id) with
  | some r =>
    { problem_id := problem_id, ease_factor := r.ease_factor,
      interval_days := r.interval_days, next_review_ts := 0 }
  | none =>
    { problem_id := problem_id, ease_factor := EASE_FACTOR_DEFAULT,
      interval_days := 0, next_review_ts := 0 }

/-- `repository::save_problem_repetition_state`: SQL `INSERT OR REPLACE`
keyed by `problem_id` (drop any row with the same key, add the new row). -/
def save_problem_repetition_state (db : Db) (st : ProblemRepetitionState) : Db :=
  { db with problem_state :=
      db.problem_state.filter (fun r => !(r.problem_id == st.problem_id)) ++ [st] }

/-- `repository::log_attempt`: append-only insert into `attempts`. -/
def log_attempt (db : Db) (problem_id : ℤ) (time_minutes : ℚ)
    (solved read_solution : Bool) (timestamp : ℤ) : Db :=
  { db with attempts := db.attempts ++
      [{ problem_id := problem_id, time_minutes := time_minutes,
         solved := solved, read_solution := read_solution,
         timestamp := timestamp }] }

/-- `repository::get_problem_metadata`: fails (`none`) when the problem row
is absent, otherwise the parsed difficulty and the tagged skill ids. -/
def get_problem_metadata (db : Db) (problem_id : ℤ) :
    Option (Difficulty × List ℤ) :=
  match db.problems.find? (fun p => p.id == problem_id) with
  | none => none
  | some p =>
    some (Difficulty.fromStr p.difficulty,
      (db.problem_skills.filter (fun ps => ps.problem_id == problem_id)).map
        (fun ps => ps.skill_id))

/-- `repository::get_attempt_count`: `SELECT count(*) FROM attempts WHERE
problem_id = ?`, as an `i64`. -/
def get_attempt_count (db : Db) (problem_id : ℤ) : ℤ :=
  ((db.attempts.filter (fun r => r.problem_id == problem_id)).length : ℤ)

/-- Failing-prerequisite test from the `get_unlocked_skills` SQL:
`mastery < 0.7 OR (mastery < 0.9 AND attempts < 2)`. -/
def prereq_fails_row (r : SkillStateRow) : Bool :=
  decide (r.mastery < MASTERY_UNLOCK_THRESHOLD) ||
    (decide (r.mastery < MASTERY_CONSOLIDATION_THRESHOLD) &&
      decide (r.attempts < ATTEMPTS_CONSOLIDATION_THRESHOLD))

/-- Whether the `failed_prereqs` count of `get_unlocked_skills` is nonzero
for `sid`: some prerequisite edge of `sid` joins a failing `skill_state`
row. -/
def has_failed_prereq (db : Db) (sid : ℤ) : Bool :=
  db.skill_prereqs.any (fun e =>
    e.1 == sid && db.skill_state.any (fun r =>
      r.skill_id == e.2 && prereq_fails_row r))

/-- `repository::get_unlocked_skills`: every skill whose failing-prereq
count is zero. -/
def get_unlocked_skills (db : Db) : List ℤ :=
  db.skills.filter (fun sid => !has_failed_prereq db sid)

/-- Tagged skill ids of a problem (the `problem_skills` rows for its id). -/
def problem_tagged_skills (db : Db) (problem_id : ℤ) : List ℤ :=
  (db.problem_skills.filter (fun ps => ps.problem_id == problem_id)).map
    (fun ps => ps.skill_id)

/-- WHERE clause of `repository::find_new_problem_for_skills`: in the track,
tagged with at least one of `skill_ids` (the SQL `IN` join), no repetition
state of its own, not an alternative of a problem with repetition state,
and not the parent of an attempted alternative. -/
def discovery_candidate (db : Db) (track_id : ℤ) (skill_ids : List ℤ)
    (p : ProblemRow) : Bool :=
  (db.track_problems.any (fun tp => tp.track_id == track_id && tp.problem_id == p.id)) &&
  (db.problem_skills.any (fun ps =>
    ps.problem_id == p.id && skill_ids.any (fun s => s == ps.skill_id))) &&
  !(db.problem_state.any (fun st => st.problem_id == p.id)) &&
  !(db.alternatives.any (fun a =>
    a.id == p.id && db.problem_state.any (fun st => st.problem_id == a.parent_id))) &&
  !(db.alternatives.any (fun a =>
    a.parent_id == p.id && db.attempts.any (fun r => r.problem_id == a.id)))

/-- `repository::find_new_problem_for_skills` as its candidate set: the rows
satisfying the WHERE clause (empty when `skill_ids` is empty, the early
return).  The SQL then orders by difficulty with a random tie-break and
returns one member of this list; the claims quantify over any member. -/
def find_new_problem_for_skills (db : Db) (track_id : ℤ)
    (skill_ids : List ℤ) : List ProblemRow :=
  if skill_ids.isEmpty then []
  else db.problems.filter (discovery_candidate db track_id skill_ids)

/-! Pedagogy core, from `src/src-tauri/src/pedagogy.rs`. -/

/-- New-versus-review classification used by `update_repetition_logic`
(line 139): `is_new = prior_attempts <= 1`. -/
def is_new_classification (prior_attempts : ℤ) : Bool :=
  decide (prior_attempts ≤ 1)

/-- Branch table of `update_repetition_logic` (lines 153 to 185): the
pre-clamp (ease factor, interval) pair.  First match wins: fail, then the
new-problem split on ratio 1.5, then the review split on ratios 2.0 and
0.6; in the speed branch the interval multiplication uses the already
incremented ease factor, as in the source. -/
def repetition_branch (st : ProblemRepetitionState) (log : AttemptLog)
    (difficulty : Difficulty) (prior_attempts : ℤ) : ℚ × ℚ :=
  let time_ratio := log.time_minutes / expected_time difficulty
  let is_fail := !log.solved || log.read_solution
  if is_fail then
    (max (st.ease_factor - EASE_FACTOR_DECREMENT_FAIL) EASE_FACTOR_MIN,
      INTERVAL_MIN)
  else if is_new_classification prior_attempts then
    if time_ratio > 3/2 then
      (st.ease_factor - EASE_FACTOR_NEUTRAL_GRIT, INTERVAL_NEW_GRIT)
    else
      (st.ease_factor + EASE_FACTOR_INCREMENT_CLEAN, INTERVAL_NEW_CLEAN)
  else
    if time_ratio > 2 then
      (st.ease_factor - EASE_FACTOR_DECREMENT_STRUGGLE,
        st.interval_days * INTERVAL_MULTIPLIER_STRUGGLE)
    else if time_ratio < 6/10 then
      (st.ease_factor + EASE_FACTOR_INCREMENT_SPEED,
        st.interval_days * ((st.ease_factor + EASE_FACTOR_INCREMENT_SPEED) *
          INTERVAL_MULTIPLIER_SPEED))
    else
      (st.ease_factor, st.interval_days * st.ease_factor)

/-- State transition of `update_repetition_logic` between the read and the
save: the branch table, then clamping of ease to [1.3, 5.0] and interval to
[1.0, 180.0], then `next_review_ts = now + (interval * 86400) as i64`
(truncation; the interval is positive after clamping, so it is a floor). -/
def repetition_transition (st : ProblemRepetitionState) (log : AttemptLog)
    (difficulty : Difficulty) (prior_attempts : ℤ) (now : ℤ) :
    ProblemRepetitionState :=
  let b := repetition_branch st log difficulty prior_attempts
  let ef := min (max b.1 EASE_FACTOR_MIN) EASE_FACTOR_MAX
  let iv := min (max b.2 INTERVAL_MIN) INTERVAL_MAX
  { problem_id := st.problem_id,
    ease_factor := ef,
    interval_days := iv,
    next_review_ts := now + ⌊iv * (DAY_SECONDS : ℚ)⌋ }

/-- `pedagogy::update_repetition_logic`: read the state keyed by
`log.problem_id`, apply the transition, save the result under the same
key. -/
def update_repetition_logic (db : Db) (log : AttemptLog)
    (difficulty : Difficulty) (prior_attempts : ℤ) (now : ℤ) : Db :=
  save_problem_repetition_state db
    (repetition_transition (get_problem_repetition_state db log.problem_id)
      log difficulty prior_attempts now)

/-- Performance multiplier of `pedagogy::update_mastery_logic`: fail wins,
then a time ratio above 1.5 takes the grit bonus (new or not), then the
attempt count (read from the store at this point, i.e. after the attempt
was logged) distinguishes review from new-clean. -/
def performance_multiplier (db : Db) (log : AttemptLog)
    (difficulty : Difficulty) : ℚ :=
  let time_ratio := log.time_minutes / expected_time difficulty
  let is_fail := !log.solved || log.read_solution
  if is_fail then PERFORMANCE_MULTIPLIER_FAIL
  else if time_ratio > 3/2 then PERFORMANCE_MULTIPLIER_NEW_GRIT
  else if get_attempt_count db log.problem_id > 1 then PERFORMANCE_MULTIPLIER_REVIEW
  else PERFORMANCE_MULTIPLIER_NEW_CLEAN

/-- Scaffolding penalty: halve the delta when the learner revealed the
skill tags. -/
def scaffolding_multiplier (log : AttemptLog) : ℚ :=
  if log.revealed_skills then 1/2 else 1

/-- Mastery delta: `ALPHA * diff_mult * perf_mult * scaffolding_mult`,
computed once before the per-skill loop. -/
def mastery_delta (db : Db) (log : AttemptLog) (difficulty : Difficulty) : ℚ :=
  ALPHA * difficulty_multiplier difficulty * performance_multiplier db log difficulty *
    scaffolding_multiplier log

/-- Body of the per-skill loop of `update_mastery_logic`: read the state,
clamp `mastery + delta` to [0, 1], bump the attempts counter, write back. -/
def mastery_step (delta : ℚ) (d : Db) (sid : ℤ) : Db :=
  let s := get_skill_state d sid
  update_skill_state d
    { skill_id := sid,
      mastery := min (max (s.mastery + delta) 0) 1,
      attempts := s.attempts + 1 }

/-- `pedagogy::update_mastery_logic`: one delta, then the loop over the
skill ids (each iteration reads the store left by the previous one). -/
def update_mastery_logic (db : Db) (log : AttemptLog)
    (difficulty : Difficulty) (skill_ids : List ℤ) : Db :=
  skill_ids.foldl (mastery_step (mastery_delta db log difficulty)) db

/-- Metadata resolution of `process_attempt` steps 2 and its edge case: the
submitted problem's metadata, falling back to the parent's (then to
Medium/no-skills); when the skills came back empty, retry the skills from
the parent while keeping the difficulty. -/
def resolved_metadata (db : Db) (submitted parent : ℤ) :
    Difficulty × List ℤ :=
  let m :=
    match get_problem_metadata db submitted with
    | some m => m
    | none =>
      match get_problem_metadata db parent with
      | some m => m
      | none => (Difficulty.Medium, [])
  if m.2.isEmpty then
    match get_problem_metadata db parent with
    | some m2 => (m.1, m2.2)
    | none => m
  else m

/-- Skill ids credited by `process_attempt` for a submitted id. -/
def resolved_skill_ids (db : Db) (submitted : ℤ) : List ℤ :=
  (resolved_metadata db submitted (resolve_parent_id db submitted).1).2

/-- The `prior_attempts_parent` value of `process_attempt`: the attempt
count of the canonical parent id, read after this attempt was logged under
the submitted id. -/
def prior_attempts_used (db : Db) (log : AttemptLog) (now : ℤ) : ℤ :=
  get_attempt_count
    (log_attempt db log.problem_id log.time_minutes log.solved log.read_solution now)
    (resolve_parent_id db log.problem_id).1

/-- `pedagogy::process_attempt` (the storage-success path): resolve the
parent, resolve metadata, log the attempt under the submitted id, read the
parent's attempt count, run the repetition update on the parent id, run the
mastery update on the resolved skills. -/
def process_attempt (db : Db) (log : AttemptLog) (now : ℤ) : Db :=
  let parent_id := (resolve_parent_id db log.problem_id).1
  let meta := resolved_metadata db log.problem_id parent_id
  let db1 := log_attempt db log.problem_id log.time_minutes log.solved
    log.read_solution now
  let prior := get_attempt_count db1 parent_id
  let logicLog : AttemptLog := { log with problem_id := parent_id }
  let db2 := update_repetition_logic db1 logicLog meta.1 prior now
  update_mastery_logic db2 logicLog meta.1 meta.2

/-! Recommendation view and the request-level control flow, for the
error-handling claim.  The repository calls are fallible
(`rusqlite::Result`, surfaced as `Result<_, String>`); the two flow
functions below take each call's outcome as a parameter and reproduce
exactly the `if let Ok(..)` / `map_err(..)?` structure of
`pedagogy::get_next_problem` and `pedagogy::process_attempt`. -/

structure ProblemView where
  id : ℤ
  title : String
  difficulty : String
  url : String
  track_name : String
  skills : List String
deriving DecidableEq, Repr

/-- Control flow of `pedagogy::get_next_problem`: a due-review hit returns
a random alternative when one exists, else the parent; an error or absence
falls through to discovery; only the unlocked-skills read propagates its
error; discovery and cram errors fall through. -/
def get_next_problem
    (find_due_review_res : Except String (Option ProblemView))
    (get_random_alternative_res : Except String (Option ProblemView))
    (get_unlocked_skills_res : Except String (List ℤ))
    (find_new_res : Except String (Option ProblemView))
    (find_cram_res : Except String (Option ProblemView)) :
    Except String (Option ProblemView) :=
  match find_due_review_res with
  | .ok (some parent_problem) =>
    match get_random_alternative_res with
    | .ok (some alt_problem) => .ok (some alt_problem)
    | _ => .ok (some parent_problem)
  | _ =>
    match get_unlocked_skills_res with
    | .error e => .error e
    | .ok _unlocked =>
      match find_new_res with
      | .ok (some p) => .ok (some p)
      | _ =>
        match find_cram_res with
        | .ok (some p) => .ok (some p)
        | _ => .ok none

/-- Control flow of `pedagogy::process_attempt`: parent resolution, attempt
logging, the attempt count and the two updates propagate their errors via
`map_err(..)?`; the metadata reads are absorbed by the fallback chain and
never abort. -/
def process_attempt_flow
    (resolve_res : Except String (ℤ × Bool))
    (meta_submitted meta_parent : Except String (Difficulty × List ℤ))
    (log_attempt_res : Except String Unit)
    (attempt_count_res : Except String ℤ)
    (rep_update : Difficulty → ℤ → Except String Unit)
    (mastery_update : Difficulty → List ℤ → Except String Unit) :
    Except String Unit :=
  match resolve_res with
  | .error e => .error e
  | .ok _pr =>
    let meta :=
      match meta_submitted with
      | .ok m => m
      | .error _ =>
        match meta_parent with
        | .ok m => m
        | .error _ => (Difficulty.Medium, [])
    let skill_ids :=
      if meta.2.isEmpty then
        match meta_parent with
        | .ok m2 => m2.2
        | .error _ => meta.2
      else meta.2
    match log_attempt_res with
    | .error e => .error e
    | .ok _ =>
      match attempt_count_res with
      | .error e => .error e
      | .ok prior =>
        match rep_update meta.1 prior with
        | .error e => .error e
        | .ok _ => mastery_update meta.1 skill_ids

/-! Helper lemmas. -/

lemma clamp_le_left (x lo hi : ℚ) (h : lo ≤ hi) : lo ≤ min (max x lo) hi :=
  le_min (le_max_right _ _) h

lemma clamp_le_right (x lo hi : ℚ) : min (max x lo) hi ≤ hi :=
  min_le_right _ _

lemma ease_min_le_max : EASE_FACTOR_MIN ≤ EASE_FACTOR_MAX := by
  norm_num [EASE_FACTOR_MIN, EASE_FACTOR_MAX]

lemma interval_min_le_max : INTERVAL_MIN ≤ INTERVAL_MAX := by
  norm_num [INTERVAL_MIN, INTERVAL_MAX]

lemma repetition_transition_ease (st : ProblemRepetitionState)
    (log : AttemptLog) (d : Difficulty) (p now : ℤ) :
    (repetition_transition st log d p now).ease_factor
      = min (max (repetition_branch st log d p).1 EASE_FACTOR_MIN) EASE_FACTOR_MAX :=
  rfl

lemma repetition_transition_interval (st : ProblemRepetitionState)
    (log : AttemptLog) (d : Difficulty) (p now : ℤ) :
    (repetition_transition st log d p now).interval_days
      = min (max (repetition_branch st log d p).2 INTERVAL_MIN) INTERVAL_MAX :=
  rfl

lemma repetition_transition_id (st : ProblemRepetitionState)
    (log : AttemptLog) (d : Difficulty) (p now : ℤ) :
    (repetition_transition st log d p now).problem_id = st.problem_id :=
  rfl

lemma get_problem_repetition_state_id (db : Db) (pid : ℤ) :
    (get_problem_repetition_state db pid).problem_id = pid := by
  unfold get_problem_repetition_state
  split <;> rfl

lemma find?_save (l : List ProblemRepetitionState) (st : ProblemRepetitionState) :
    ((l.filter (fun r => !(r.problem_id == st.problem_id))) ++ [st]).find?
      (fun r => r.problem_id == st.problem_id) = some st := by
  induction l with
  | nil => simp
  | cons h t ih =>
    by_cases hh : h.problem_id = st.problem_id
    · simp [hh, ih]
    · simp [List.filter_cons, hh, ih]

lemma get_after_save (db : Db) (st : ProblemRepetitionState) :
    get_problem_repetition_state (save_problem_repetition_state db st) st.problem_id
      = { st with next_review_ts := 0 } := by
  simp only [get_problem_repetition_state, save_problem_repetition_state, find?_save]

lemma get_after_save' (db : Db) (st : ProblemRepetitionState) (pid : ℤ)
    (h : st.problem_id = pid) :
    get_problem_repetition_state (save_problem_repetition_state db st) pid
      = { st with next_review_ts := 0 } :=
  h ▸ get_after_save db st

/-! Claims. -/

/-- C1: for every attempt processed by the Repetition Updater, whatever the
difficulty, minutes, flags and prior state, the resulting state has ease
factor in [1.3, 5.0] and interval in [1.0, 180.0]; and the state read back
from the store after `update_repetition_logic` runs is in range, so no code
path persists an out-of-range value. -/
theorem c1_repetition_state_always_clamped :
    (∀ (st : ProblemRepetitionState) (log : AttemptLog) (difficulty : Difficulty)
        (prior_attempts now : ℤ),
      EASE_FACTOR_MIN ≤ (repetition_transition st log difficulty prior_attempts now).ease_factor ∧
      (repetition_transition st log difficulty prior_attempts now).ease_factor ≤ EASE_FACTOR_MAX ∧
      INTERVAL_MIN ≤ (repetition_transition st log difficulty prior_attempts now).interval_days ∧
      (repetition_transition st log difficulty prior_attempts now).interval_days ≤ INTERVAL_MAX) ∧
    (∀ (db : Db) (log : AttemptLog) (difficulty : Difficulty) (prior_attempts now : ℤ),
      EASE_FACTOR_MIN ≤ (get_problem_repetition_state
          (update_repetition_logic db log difficulty prior_attempts now)
          log.problem_id).ease_factor ∧
      (get_problem_repetition_state
          (update_repetition_logic db log difficulty prior_attempts now)
          log.problem_id).ease_factor ≤ EASE_FACTOR_MAX ∧
      INTERVAL_MIN ≤ (get_problem_repetition_state
          (update_repetition_logic db log difficulty prior_attempts now)
          log.problem_id).interval_days ∧
      (get_problem_repetition_state
          (update_repetition_logic db log difficulty prior_attempts now)
          log.problem_id).interval_days ≤ INTERVAL_MAX) := by
  have base : ∀ (st : ProblemRepetitionState) (log : AttemptLog)
      (difficulty : Difficulty) (prior_attempts now : ℤ),
      EASE_FACTOR_MIN ≤ (repetition_transition st log difficulty prior_attempts now).ease_factor ∧
      (repetition_transition st log difficulty prior_attempts now).ease_factor ≤ EASE_FACTOR_MAX ∧
      INTERVAL_MIN ≤ (repetition_transition st log difficulty prior_attempts now).interval_days ∧
      (repetition_transition st log difficulty prior_attempts now).interval_days ≤ INTERVAL_MAX := by
    intro st log difficulty p now
    rw [repetition_transition_ease, repetition_transition_interval]
    exact ⟨clamp_le_left _ _ _ ease_min_le_max, clamp_le_right _ _ _,
      clamp_le_left _ _ _ interval_min_le_max, clamp_le_right _ _ _⟩
  refine ⟨base, ?_⟩
  intro db log difficulty p now
  unfold update_repetition_logic
  rw [get_after_save' db _ log.problem_id
    (by rw [repetition_transition_id, get_problem_repetition_state_id])]
  exact base (get_problem_repetition_state db log.problem_id) log difficulty p now

/-- C4: a fail outcome (not solved, or solution read) always sets the
interval to exactly 1.0 day and decrements the ease factor by exactly 0.20,
floored at 1.3 (and, as for every update, capped at 5.0 — a no-op whenever
the prior ease is itself at most 5.0), independently of difficulty, minutes
spent and the new/review classification. -/
theorem c4_fail_resets_interval_and_ease
    (st : ProblemRepetitionState) (log : AttemptLog) (difficulty : Difficulty)
    (prior_attempts now : ℤ)
    (h : log.solved = false ∨ log.read_solution = true) :
    (repetition_transition st log difficulty prior_attempts now).interval_days
      = INTERVAL_MIN ∧
    (repetition_transition st log difficulty prior_attempts now).ease_factor
      = min (max (st.ease_factor - EASE_FACTOR_DECREMENT_FAIL) EASE_FACTOR_MIN)
          EASE_FACTOR_MAX ∧
    (st.ease_factor ≤ EASE_FACTOR_MAX →
      (repetition_transition st log difficulty prior_attempts now).ease_factor
        = max (st.ease_factor - EASE_FACTOR_DECREMENT_FAIL) EASE_FACTOR_MIN) := by
  have hfail : (!log.solved || log.read_solution) = true := by
    rcases h with h | h <;> simp [h]
  have hb : repetition_branch st log difficulty prior_attempts
      = (max (st.ease_factor - EASE_FACTOR_DECREMENT_FAIL) EASE_FACTOR_MIN,
          INTERVAL_MIN) := by
    simp [repetition_branch, hfail]
  have hiv : (repetition_transition st log difficulty prior_attempts now).interval_days
      = INTERVAL_MIN := by
    rw [repetition_transition_interval, hb, max_self,
      min_eq_left interval_min_le_max]
  have hease : (repetition_transition st log difficulty prior_attempts now).ease_factor
      = min (max (st.ease_factor - EASE_FACTOR_DECREMENT_FAIL) EASE_FACTOR_MIN)
          EASE_FACTOR_MAX := by
    rw [repetition_transition_ease, hb, max_eq_left (le_max_right _ _)]
  refine ⟨hiv, hease, fun hle => ?_⟩
  rw [hease]
  refine min_eq_left (max_le ?_ ease_min_le_max)
  calc st.ease_factor - EASE_FACTOR_DECREMENT_FAIL
      ≤ st.ease_factor := by
        norm_num [EASE_FACTOR_DECREMENT_FAIL]
    _ ≤ EASE_FACTOR_MAX := hle

/-- Witness for C4 at a concrete fail attempt (Medium problem, 30 minutes,
not solved, prior ease 2.5 and interval 10). -/
theorem c4_fail_resets_interval_and_ease_witness :
    (repetition_transition ⟨1, 5/2, 10, 0⟩ ⟨1, 30, false, false, false⟩
        Difficulty.Medium 5 0).interval_days = INTERVAL_MIN ∧
    (repetition_transition ⟨1, 5/2, 10, 0⟩ ⟨1, 30, false, false, false⟩
        Difficulty.Medium 5 0).ease_factor
      = max ((5/2 : ℚ) - EASE_FACTOR_DECREMENT_FAIL) EASE_FACTOR_MIN :=
  ⟨(c4_fail_resets_interval_and_ease ⟨1, 5/2, 10, 0⟩ ⟨1, 30, false, false, false⟩
      Difficulty.Medium 5 0 (Or.inl rfl)).1,
   (c4_fail_resets_interval_and_ease ⟨1, 5/2, 10, 0⟩ ⟨1, 30, false, false, false⟩
      Difficulty.Medium 5 0 (Or.inl rfl)).2.2
      (by norm_num [EASE_FACTOR_MAX])⟩

/-- C7: a review attempt (classification count strictly above 1, i.e. prior
attempts at least 1 before this submission) that is solved without reading
the solution and whose minutes equal exactly twice the expected time lands
in the normal review branch: interval multiplied by the ease factor, ease
unchanged (up to the always-applied clamp, the identity on any in-range
prior ease); the struggle boundary at ratio 2.0 is exclusive. -/
theorem c7_review_struggle_boundary_exclusive
    (st : ProblemRepetitionState) (log : AttemptLog) (difficulty : Difficulty)
    (prior_attempts now : ℤ)
    (hreview : 1 < prior_attempts)
    (hsolved : log.solved = true) (hread : log.read_solution = false)
    (htime : log.time_minutes = 2 * expected_time difficulty) :
    (repetition_transition st log difficulty prior_attempts now).interval_days
      = min (max (st.interval_days * st.ease_factor) INTERVAL_MIN) INTERVAL_MAX ∧
    (repetition_transition st log difficulty prior_attempts now).ease_factor
      = min (max st.ease_factor EASE_FACTOR_MIN) EASE_FACTOR_MAX ∧
    (EASE_FACTOR_MIN ≤ st.ease_factor → st.ease_factor ≤ EASE_FACTOR_MAX →
      (repetition_transition st log difficulty prior_attempts now).ease_factor
        = st.ease_factor) := by
  have hexp : expected_time difficulty ≠ 0 := by
    cases difficulty <;>
      norm_num [expected_time, EXPECTED_TIME_EASY, EXPECTED_TIME_MEDIUM,
        EXPECTED_TIME_HARD]
  have hratio : log.time_minutes / expected_time difficulty = 2 := by
    rw [htime, mul_div_assoc, div_self hexp, mul_one]
  have hnew : is_new_classification prior_attempts = false := by
    simp [is_new_classification, not_le.mpr hreview]
  have hb : repetition_branch st log difficulty prior_attempts
      = (st.ease_factor, st.interval_days * st.ease_factor) := by
    simp only [repetition_branch, hsolved, hread, hratio, hnew]
    norm_num
  refine ⟨by rw [repetition_transition_interval, hb],
    by rw [repetition_transition_ease, hb], fun hlo hhi => ?_⟩
  rw [repetition_transition_ease, hb, max_eq_left hlo, min_eq_left hhi]

/-- Witness for C7: Hard review (prior attempts 1, classification count 2),
90 minutes against the expected 45, solved without the solution, prior ease
2.5 and interval 10: the normal branch multiplies the interval to 25 and
leaves the ease at 2.5. -/
theorem c7_review_struggle_boundary_exclusive_witness :
    (repetition_transition ⟨1, 5/2, 10, 0⟩ ⟨1, 90, true, false, false⟩
        Difficulty.Hard 2 0).interval_days = 25 ∧
    (repetition_transition ⟨1, 5/2, 10, 0⟩ ⟨1, 90, true, false, false⟩
        Difficulty.Hard 2 0).ease_factor = 5/2 := by
  have h := c7_review_struggle_boundary_exclusive ⟨1, 5/2, 10, 0⟩
    ⟨1, 90, true, false, false⟩ Difficulty.Hard 2 0 (by norm_num) rfl rfl
    (by norm_num [expected_time, EXPECTED_TIME_HARD])
  refine ⟨?_, h.2.2 (by norm_num [EASE_FACTOR_MIN]) (by norm_num [EASE_FACTOR_MAX])⟩
  rw [h.1]
  norm_num [INTERVAL_MIN, INTERVAL_MAX]

/-- Store with two prior attempts on problem 7 and nothing else. -/
def c3db : Db :=
  { skills := [], skill_prereqs := [], problems := [], problem_skills := [],
    track_problems := [], alternatives := [],
    attempts := [⟨7, 30, true, false, 0⟩, ⟨7, 90, true, false, 1⟩],
    problem_state := [], skill_state := [] }

/-- C3 counterexample: a solved review attempt (attempt count 2 on the
canonical problem) with time ratio 2.0 on Hard receives the grit multiplier
1.2, not the review multiplier 0.3 — the ratio test precedes the review
test in `update_mastery_logic`. -/
theorem c3_performance_multiplier_counterexample :
    1 < get_attempt_count c3db 7 ∧
    (⟨7, 90, true, false, false⟩ : AttemptLog).solved = true ∧
    (⟨7, 90, true, false, false⟩ : AttemptLog).read_solution = false ∧
    performance_multiplier c3db ⟨7, 90, true, false, false⟩ Difficulty.Hard
      = PERFORMANCE_MULTIPLIER_NEW_GRIT ∧
    PERFORMANCE_MULTIPLIER_NEW_GRIT ≠ PERFORMANCE_MULTIPLIER_REVIEW := by
  refine ⟨by decide, rfl, rfl, ?_, ?_⟩
  · unfold performance_multiplier
    norm_num [expected_time, EXPECTED_TIME_HARD]
  · norm_num [PERFORMANCE_MULTIPLIER_NEW_GRIT, PERFORMANCE_MULTIPLIER_REVIEW]

/-- C3 amended: the performance multiplier is 0.0 on a fail; 1.2 whenever a
non-fail attempt's time ratio exceeds 1.5, review or not; 0.3 only for a
non-fail review (attempt count on the canonical problem, read after this
attempt was logged, above 1) at ratio at most 1.5; and 1.0 otherwise. -/
theorem c3_performance_multiplier_characterization
    (db : Db) (log : AttemptLog) (difficulty : Difficulty) :
    ((!log.solved || log.read_solution) = true →
      performance_multiplier db log difficulty = PERFORMANCE_MULTIPLIER_FAIL) ∧
    ((!log.solved || log.read_solution) = false →
      log.time_minutes / expected_time difficulty > 3/2 →
      performance_multiplier db log difficulty = PERFORMANCE_MULTIPLIER_NEW_GRIT) ∧
    ((!log.solved || log.read_solution) = false →
      ¬(log.time_minutes / expected_time difficulty > 3/2) →
      1 < get_attempt_count db log.problem_id →
      performance_multiplier db log difficulty = PERFORMANCE_MULTIPLIER_REVIEW) ∧
    ((!log.solved || log.read_solution) = false →
      ¬(log.time_minutes / expected_time difficulty > 3/2) →
      ¬(1 < get_attempt_count db log.problem_id) →
      performance_multiplier db log difficulty = PERFORMANCE_MULTIPLIER_NEW_CLEAN) := by
  refine ⟨fun hf => ?_, fun hf hr => ?_, fun hf hr hc => ?_, fun hf hr hc => ?_⟩
  · simp [performance_multiplier, hf]
  · simp [performance_multiplier, hf, hr]
  · simp [performance_multiplier, hf, hr, hc]
  · simp [performance_multiplier, hf, hr, hc]

/-- Witness for C3 amended: a solved non-review-speed attempt (ratio 2/3)
with two logged attempts on the problem receives the review multiplier. -/
theorem c3_performance_multiplier_characterization_witness :
    performance_multiplier c3db ⟨7, 30, true, false, false⟩ Difficulty.Hard
      = PERFORMANCE_MULTIPLIER_REVIEW :=
  (c3_performance_multiplier_characterization c3db ⟨7, 30, true, false, false⟩
    Difficulty.Hard).2.2.1 (by decide)
    (by norm_num [expected_time, EXPECTED_TIME_HARD]) (by decide)

/-! Lemmas about attempt counting for C8. -/

lemma resolve_parent_id_of_not_alt (db : Db) (pid : ℤ)
    (h : (resolve_parent_id db pid).2 = false) :
    (resolve_parent_id db pid).1 = pid := by
  unfold resolve_parent_id at h ⊢
  cases hf : db.alternatives.find? (fun a => a.id == pid) with
  | none => rfl
  | some a => rw [hf] at h; exact absurd h (by simp)

lemma get_attempt_count_log_same (db : Db) (pid : ℤ) (m : ℚ) (s r : Bool)
    (ts : ℤ) :
    get_attempt_count (log_attempt db pid m s r ts) pid
      = get_attempt_count db pid + 1 := by
  unfold get_attempt_count log_attempt
  simp

lemma get_attempt_count_log_other (db : Db) (pid other : ℤ) (h : other ≠ pid)
    (m : ℚ) (s r : Bool) (ts : ℤ) :
    get_attempt_count (log_attempt db other m s r ts) pid
      = get_attempt_count db pid := by
  unfold get_attempt_count log_attempt
  simp [h]

lemma get_attempt_count_nonneg (db : Db) (pid : ℤ) :
    0 ≤ get_attempt_count db pid :=
  Int.natCast_nonneg _

/-- Empty store for the canonical-submission case of C8. -/
def c8db : Db :=
  { skills := [], skill_prereqs := [], problems := [], problem_skills := [],
    track_problems := [], alternatives := [], attempts := [],
    problem_state := [], skill_state := [] }

/-- C8 counterexample: for a canonical submission on a fresh problem the
count `process_attempt` feeds to the Repetition Updater is 1 — the count as
read after this attempt was logged — not the pre-submission count 0 the
claim states. -/
theorem c8_prior_count_counterexample :
    prior_attempts_used c8db ⟨1, 10, true, false, false⟩ 0 = 1 ∧
    get_attempt_count c8db (resolve_parent_id c8db 1).1 = 0 ∧
    (1 : ℤ) ≠ 0 := by
  decide

/-- C8 amended: the count is read after the attempt is logged under the
submitted id.  For a canonical submission it therefore equals the
pre-submission canonical count plus one, and the Repetition Updater's
classification marks the attempt new exactly when the pre-submission count
is 0 (the first tracked attempt).  For an Alternative submission the logged
row is keyed under the Alternative's own id, so the count equals the
pre-submission canonical count unchanged and the attempt is classified new
exactly when that count is at most 1 — a second canonical attempt arriving
through an Alternative is still classified as new. -/
theorem c8_prior_count_read_after_logging
    (db : Db) (log : AttemptLog) (now : ℤ) :
    ((resolve_parent_id db log.problem_id).2 = false →
      prior_attempts_used db log now
        = get_attempt_count db (resolve_parent_id db log.problem_id).1 + 1 ∧
      (is_new_classification (prior_attempts_used db log now) = true ↔
        get_attempt_count db (resolve_parent_id db log.problem_id).1 = 0)) ∧
    ((resolve_parent_id db log.problem_id).2 = true →
      (resolve_parent_id db log.problem_id).1 ≠ log.problem_id →
      prior_attempts_used db log now
        = get_attempt_count db (resolve_parent_id db log.problem_id).1 ∧
      (is_new_classification (prior_attempts_used db log now) = true ↔
        get_attempt_count db (resolve_parent_id db log.problem_id).1 ≤ 1)) := by
  constructor
  · intro h
    have hp : (resolve_parent_id db log.problem_id).1 = log.problem_id :=
      resolve_parent_id_of_not_alt db log.problem_id h
    have hcount : prior_attempts_used db log now
        = get_attempt_count db (resolve_parent_id db log.problem_id).1 + 1 := by
      unfold prior_attempts_used
      rw [hp, get_attempt_count_log_same]
    refine ⟨hcount, ?_⟩
    have hnn := get_attempt_count_nonneg db (resolve_parent_id db log.problem_id).1
    rw [hcount]
    simp only [is_new_classification, decide_eq_true_eq]
    omega
  · intro _halt hne
    have hcount : prior_attempts_used db log now
        = get_attempt_count db (resolve_parent_id db log.problem_id).1 := by
      unfold prior_attempts_used
      exact get_attempt_count_log_other db _ log.problem_id (fun hx => hne hx.symm)
        log.time_minutes log.solved log.read_solution now
    refine ⟨hcount, ?_⟩
    rw [hcount]
    simp [is_new_classification]

/-- Store with one Alternative (id 2, parent 1) and one prior canonical
attempt on problem 1, for the Alternative case of C8. -/
def c8dbAlt : Db :=
  { skills := [], skill_prereqs := [], problems := [], problem_skills := [],
    track_problems := [], alternatives := [⟨2, 1⟩],
    attempts := [⟨1, 5, true, false, 0⟩], problem_state := [], skill_state := [] }

/-- Witness for C8 amended, both cases at concrete inputs: a canonical
submission on the empty store, and an Alternative submission whose parent
already has one attempt. -/
theorem c8_prior_count_read_after_logging_witness :
    prior_attempts_used c8db ⟨1, 10, true, false, false⟩ 0
      = get_attempt_count c8db (resolve_parent_id c8db 1).1 + 1 ∧
    prior_attempts_used c8dbAlt ⟨2, 10, true, false, false⟩ 0
      = get_attempt_count c8dbAlt (resolve_parent_id c8dbAlt 2).1 ∧
    is_new_classification (prior_attempts_used c8dbAlt ⟨2, 10, true, false, false⟩ 0)
      = true :=
  ⟨((c8_prior_count_read_after_logging c8db ⟨1, 10, true, false, false⟩ 0).1
      (by decide)).1,
   ((c8_prior_count_read_after_logging c8dbAlt ⟨2, 10, true, false, false⟩ 0).2
      (by decide) (by decide)).1,
   (((c8_prior_count_read_after_logging c8dbAlt ⟨2, 10, true, false, false⟩ 0).2
      (by decide) (by decide)).2).mpr (by decide)⟩

/-! Frame lemmas: which tables each operation leaves untouched. -/

lemma mastery_fold_problem_state (delta : ℚ) (ids : List ℤ) (d : Db) :
    (ids.foldl (mastery_step delta) d).problem_state = d.problem_state := by
  induction ids generalizing d with
  | nil => rfl
  | cons i t ih => rw [List.foldl_cons, ih]; rfl

lemma mastery_fold_attempts (delta : ℚ) (ids : List ℤ) (d : Db) :
    (ids.foldl (mastery_step delta) d).attempts = d.attempts := by
  induction ids generalizing d with
  | nil => rfl
  | cons i t ih => rw [List.foldl_cons, ih]; rfl

lemma update_mastery_problem_state (db : Db) (log : AttemptLog)
    (difficulty : Difficulty) (ids : List ℤ) :
    (update_mastery_logic db log difficulty ids).problem_state = db.problem_state :=
  mastery_fold_problem_state _ ids db

lemma update_mastery_attempts (db : Db) (log : AttemptLog)
    (difficulty : Difficulty) (ids : List ℤ) :
    (update_mastery_logic db log difficulty ids).attempts = db.attempts :=
  mastery_fold_attempts _ ids db

lemma update_repetition_problem_state (db : Db) (log : AttemptLog)
    (d : Difficulty) (p now : ℤ) :
    (update_repetition_logic db log d p now).problem_state
      = db.problem_state.filter (fun r => !(r.problem_id == log.problem_id)) ++
        [repetition_transition (get_problem_repetition_state db log.problem_id)
          log d p now] := by
  unfold update_repetition_logic save_problem_repetition_state
  rw [show (repetition_transition (get_problem_repetition_state db log.problem_id)
      log d p now).problem_id = log.problem_id from by
    rw [repetition_transition_id, get_problem_repetition_state_id]]

/-- C5: `process_attempt` appends the Attempt record under the submitted id
exactly as received, while the repetition-state read and upsert are keyed
by the resolved canonical parent id; and when the submitted id is an
Alternative (with a parent distinct from itself), no repetition-state row
under the Alternative's own id is created or changed. -/
theorem c5_attempt_under_submitted_id_state_under_parent
    (db : Db) (log : AttemptLog) (now : ℤ) :
    (process_attempt db log now).attempts
      = db.attempts ++
        [{ problem_id := log.problem_id, time_minutes := log.time_minutes,
           solved := log.solved, read_solution := log.read_solution,
           timestamp := now }] ∧
    (process_attempt db log now).problem_state
      = db.problem_state.filter
          (fun r => !(r.problem_id == (resolve_parent_id db log.problem_id).1)) ++
        [repetition_transition
          (get_problem_repetition_state db (resolve_parent_id db log.problem_id).1)
          { log with problem_id := (resolve_parent_id db log.problem_id).1 }
          (resolved_metadata db log.problem_id (resolve_parent_id db log.problem_id).1).1
          (prior_attempts_used db log now) now] ∧
    ((resolve_parent_id db log.problem_id).2 = true →
      (resolve_parent_id db log.problem_id).1 ≠ log.problem_id →
      ∀ r ∈ (process_attempt db log now).problem_state,
        r.problem_id = log.problem_id → r ∈ db.problem_state) := by
  have hatt : (process_attempt db log now).attempts
      = db.attempts ++
        [{ problem_id := log.problem_id, time_minutes := log.time_minutes,
           solved := log.solved, read_solution := log.read_solution,
           timestamp := now }] := by
    unfold process_attempt
    rw [update_mastery_attempts]
    rfl
  have hps : (process_attempt db log now).problem_state
      = db.problem_state.filter
          (fun r => !(r.problem_id == (resolve_parent_id db log.problem_id).1)) ++
        [repetition_transition
          (get_problem_repetition_state db (resolve_parent_id db log.problem_id).1)
          { log with problem_id := (resolve_parent_id db log.problem_id).1 }
          (resolved_metadata db log.problem_id (resolve_parent_id db log.problem_id).1).1
          (prior_attempts_used db log now) now] := by
    simp only [process_attempt]
    rw [update_mastery_problem_state, update_repetition_problem_state]
    rfl
  refine ⟨hatt, hps, fun _halt hne r hr hrid => ?_⟩
  rw [hps] at hr
  rcases List.mem_append.mp hr with hmem | hmem
  · exact (List.mem_filter.mp hmem).1
  · exfalso
    have hrT : r.problem_id = (resolve_parent_id db log.problem_id).1 := by
      rcases List.mem_singleton.mp hmem with rfl
      rw [repetition_transition_id, get_problem_repetition_state_id]
    exact hne (hrid ▸ hrT.symm)

/-- Store with an Alternative (id 2, parent 1) and a pre-existing
repetition-state row under the Alternative's own id, for the C5 witness. -/
def c5db : Db :=
  { skills := [], skill_prereqs := [], problems := [], problem_skills := [],
    track_problems := [], alternatives := [⟨2, 1⟩], attempts := [],
    problem_state := [⟨2, 2, 2, 0⟩], skill_state := [] }

/-- Witness for C5: submitting an attempt on Alternative 2 leaves the row
keyed under id 2 exactly as it was in the store (the upsert targets the
parent, id 1). -/
theorem c5_attempt_under_submitted_id_state_under_parent_witness :
    (⟨2, 2, 2, 0⟩ : ProblemRepetitionState)
        ∈ (process_attempt c5db ⟨2, 10, true, false, false⟩ 0).problem_state ∧
    (⟨2, 2, 2, 0⟩ : ProblemRepetitionState) ∈ c5db.problem_state :=
  ⟨by decide,
   (c5_attempt_under_submitted_id_state_under_parent c5db
      ⟨2, 10, true, false, false⟩ 0).2.2 (by decide) (by decide)
      ⟨2, 2, 2, 0⟩ (by decide) rfl⟩

/-- Store for C2: problem 1 is tagged with skills 10 and 20; skill 20 is
locked (its prerequisite 10 has mastery 0) while skill 10 is unlocked. -/
def c2db : Db :=
  { skills := [10, 20], skill_prereqs := [(20, 10)],
    problems := [⟨1, "p1", "P1", "u", "Medium"⟩],
    problem_skills := [⟨1, 10⟩, ⟨1, 20⟩], track_problems := [⟨1, 1⟩],
    alternatives := [], attempts := [], problem_state := [],
    skill_state := [⟨10, 0, 0⟩, ⟨20, 0, 0⟩] }

lemma c2_unlocked_eval : get_unlocked_skills c2db = [10] := by
  have h1 : prereq_fails_row ⟨10, 0, 0⟩ = true := by
    norm_num [prereq_fails_row, MASTERY_UNLOCK_THRESHOLD]
  simp [get_unlocked_skills, c2db, has_failed_prereq, h1]

/-- C2 counterexample: problem 1 is a Discovery candidate for the current
unlocked-skill set (which is exactly skill 10), yet its tagged skill 20 is
not unlocked — the query requires intersection with the unlocked set, not
containment in it. -/
theorem c2_discovery_subset_counterexample :
    (⟨1, "p1", "P1", "u", "Medium"⟩ : ProblemRow)
        ∈ find_new_problem_for_skills c2db 1 (get_unlocked_skills c2db) ∧
    (20 : ℤ) ∈ problem_tagged_skills c2db 1 ∧
    (20 : ℤ) ∉ get_unlocked_skills c2db := by
  rw [c2_unlocked_eval]
  decide

/-- C2 amended: every problem in the Discovery candidate set (after the
three exclusions) has at least one tagged skill inside the filter set — in
particular inside the current unlocked-skill set when the selector passes
it — but its full tag set need not be contained in that set. -/
theorem c2_discovery_intersects_unlocked
    (db : Db) (track_id : ℤ) (skill_ids : List ℤ) (p : ProblemRow)
    (hp : p ∈ find_new_problem_for_skills db track_id skill_ids) :
    ∃ s ∈ problem_tagged_skills db p.id, s ∈ skill_ids := by
  unfold find_new_problem_for_skills at hp
  split at hp
  · exact absurd hp (List.not_mem_nil p)
  · rw [List.mem_filter] at hp
    have hc := hp.2
    unfold discovery_candidate at hc
    simp only [Bool.and_eq_true, List.any_eq_true, beq_iff_eq] at hc
    obtain ⟨⟨⟨⟨_, ps, hpsmem, hpid, s, hsmem, hseq⟩, _⟩, _⟩, _⟩ := hc
    refine ⟨ps.skill_id, ?_, hseq ▸ hsmem⟩
    unfold problem_tagged_skills
    exact List.mem_map.mpr ⟨ps, List.mem_filter.mpr ⟨hpsmem, by simp [hpid]⟩, rfl⟩

/-- Witness for C2 amended at the concrete store: the candidate problem 1
has a tagged skill inside the unlocked set. -/
theorem c2_discovery_intersects_unlocked_witness :
    ∃ s ∈ problem_tagged_skills c2db 1, s ∈ get_unlocked_skills c2db :=
  c2_discovery_intersects_unlocked c2db 1 (get_unlocked_skills c2db)
    ⟨1, "p1", "P1", "u", "Medium"⟩ (by rw [c2_unlocked_eval]; decide)

/-- Recommendation view used by the C6 counterexample. -/
def c6view : ProblemView :=
  ⟨1, "Two Sum", "Easy", "u", "New Discovery", []⟩

/-- C6 counterexample: a storage failure in the due-review query does not
abort the get-next request — the discovery tier still runs and its result
is returned as a success, masking the failure. -/
theorem c6_storage_failure_counterexample :
    get_next_problem (.error "storage failure") (.ok none) (.ok [1])
        (.ok (some c6view)) (.ok none)
      = .ok (some c6view) ∧
    (Except.ok (some c6view) : Except String (Option ProblemView))
      ≠ .error "storage failure" :=
  ⟨rfl, by simp⟩

/-- C6 amended: in the get-next request only a failure of the
unlocked-skills read aborts and surfaces its error string; failures of the
due-review, random-alternative, discovery and cram queries are swallowed
(the tier falls through, the canonical problem is served, or an empty
result is returned).  In the submit request, failures of parent resolution,
attempt logging, attempt counting, the repetition-state update and the
mastery update abort and surface their error string, while failures of the
two problem-metadata reads are masked by the fallback chain. -/
theorem c6_error_propagation :
    (∀ (e : String) alt unl disc cram,
      get_next_problem (.error e) alt unl disc cram
        = get_next_problem (.ok none) alt unl disc cram) ∧
    (∀ (e : String) (p : ProblemView) unl disc cram,
      get_next_problem (.ok (some p)) (.error e) unl disc cram = .ok (some p)) ∧
    (∀ (e : String) alt disc cram,
      get_next_problem (.ok none) alt (.error e) disc cram = .error e) ∧
    (∀ (e : String) alt unl cram,
      get_next_problem (.ok none) alt (.ok unl) (.error e) cram
        = get_next_problem (.ok none) alt (.ok unl) (.ok none) cram) ∧
    (∀ (e : String) alt unl,
      get_next_problem (.ok none) alt (.ok unl) (.ok none) (.error e) = .ok none) ∧
    (∀ (e : String) m1 m2 la cnt rep mast,
      process_attempt_flow (.error e) m1 m2 la cnt rep mast = .error e) ∧
    (∀ (e : String) pr m1 m2 cnt rep mast,
      process_attempt_flow (.ok pr) m1 m2 (.error e) cnt rep mast = .error e) ∧
    (∀ (e : String) pr m1 m2 rep mast,
      process_attempt_flow (.ok pr) m1 m2 (.ok ()) (.error e) rep mast = .error e) ∧
    (∀ (e : String) pr m1 m2 (n : ℤ) mast,
      process_attempt_flow (.ok pr) m1 m2 (.ok ()) (.ok n) (fun _ _ => .error e) mast
        = .error e) ∧
    (∀ (e : String) pr m1 m2 (n : ℤ),
      process_attempt_flow (.ok pr) m1 m2 (.ok ()) (.ok n) (fun _ _ => .ok ())
        (fun _ _ => .error e) = .error e) ∧
    (∀ (e1 e2 : String) pr la cnt rep mast,
      process_attempt_flow (.ok pr) (.error e1) (.error e2) la cnt rep mast
        = process_attempt_flow (.ok pr) (.ok (Difficulty.Medium, []))
            (.error e2) la cnt rep mast) :=
  ⟨fun _ _ _ _ _ => rfl, fun _ _ _ _ _ => rfl, fun _ _ _ _ => rfl,
   fun _ _ _ _ => rfl, fun _ _ _ => rfl, fun _ _ _ _ _ _ _ => rfl,
   fun _ _ _ _ _ _ _ => rfl, fun _ _ _ _ _ _ => rfl, fun _ _ _ _ _ _ => rfl,
   fun _ _ _ _ _ => rfl, fun _ _ _ _ _ _ _ => rfl⟩

/-! Characterization of the unlock condition for C9. -/

lemma mem_get_unlocked_skills (db : Db) (sid : ℤ) :
    sid ∈ get_unlocked_skills db ↔
      sid ∈ db.skills ∧ ¬(has_failed_prereq db sid = true) := by
  simp [get_unlocked_skills, List.mem_filter]

lemma has_failed_prereq_iff (db : Db) (sid : ℤ) :
    has_failed_prereq db sid = true ↔
      ∃ e ∈ db.skill_prereqs, e.1 = sid ∧ ∃ r ∈ db.skill_state,
        r.skill_id = e.2 ∧ prereq_fails_row r = true := by
  simp [has_failed_prereq, List.any_eq_true]

lemma prereq_fails_row_iff (r : SkillStateRow) :
    prereq_fails_row r = true ↔
      r.mastery < MASTERY_UNLOCK_THRESHOLD ∨
        (r.mastery < MASTERY_CONSOLIDATION_THRESHOLD ∧
          r.attempts < ATTEMPTS_CONSOLIDATION_THRESHOLD) := by
  simp [prereq_fails_row]

/-- C9: the unlock condition is monotone.  If skill `sid` is unlocked, then
in any later store with the same skills and prerequisite edges in which,
for every state row of a prerequisite of `sid`, there was an earlier row
for the same skill with mastery and attempts no larger (mastery at least
its value at unlock, attempts never decreased), `sid` is still unlocked. -/
theorem c9_unlock_condition_monotone
    (db db' : Db) (sid : ℤ)
    (hskills : db'.skills = db.skills)
    (hprereqs : db'.skill_prereqs = db.skill_prereqs)
    (hmono : ∀ r' ∈ db'.skill_state, (sid, r'.skill_id) ∈ db.skill_prereqs →
      ∃ r ∈ db.skill_state, r.skill_id = r'.skill_id ∧
        r.mastery ≤ r'.mastery ∧ r.attempts ≤ r'.attempts)
    (hunlocked : sid ∈ get_unlocked_skills db) :
    sid ∈ get_unlocked_skills db' := by
  rw [mem_get_unlocked_skills] at hunlocked ⊢
  rcases hunlocked with ⟨hmem, hnf⟩
  refine ⟨hskills ▸ hmem, fun hf => hnf ?_⟩
  rw [has_failed_prereq_iff] at hf ⊢
  obtain ⟨e, hemem, he1, r', hr'mem, hr'key, hr'fail⟩ := hf
  rw [hprereqs] at hemem
  obtain ⟨a, b⟩ := e
  dsimp only at he1 hr'key
  have hpair : (a, b) = (sid, r'.skill_id) := by rw [he1, hr'key]
  rw [hpair] at hemem
  obtain ⟨r, hrmem, hrkey, hrm, hra⟩ := hmono r' hr'mem hemem
  refine ⟨(sid, r'.skill_id), hemem, rfl, r, hrmem, hrkey, ?_⟩
  rw [prereq_fails_row_iff] at hr'fail ⊢
  rcases hr'fail with hm | ⟨hm, ha⟩
  · exact Or.inl (lt_of_le_of_lt hrm hm)
  · exact Or.inr ⟨lt_of_le_of_lt hrm hm, lt_of_le_of_lt hra ha⟩

/-- Store for the C9 witness: skill 2 has the single prerequisite 1, whose
state (mastery 1, attempts 0) satisfies the unlock condition. -/
def c9db : Db :=
  { skills := [1, 2], skill_prereqs := [(2, 1)], problems := [],
    problem_skills := [], track_problems := [], alternatives := [],
    attempts := [], problem_state := [], skill_state := [⟨1, 1, 0⟩] }

/-- Later store for the C9 witness: the prerequisite gained an attempt at
the same mastery. -/
def c9db' : Db :=
  { skills := [1, 2], skill_prereqs := [(2, 1)], problems := [],
    problem_skills := [], track_problems := [], alternatives := [],
    attempts := [], problem_state := [], skill_state := [⟨1, 1, 1⟩] }

lemma c9_unlocked_eval : get_unlocked_skills c9db = [1, 2] := by
  have h : prereq_fails_row ⟨1, 1, 0⟩ = false := by
    simp only [prereq_fails_row, Bool.or_eq_false_iff, Bool.and_eq_false_iff,
      decide_eq_false_iff_not]
    norm_num [MASTERY_UNLOCK_THRESHOLD, MASTERY_CONSOLIDATION_THRESHOLD]
  simp [get_unlocked_skills, c9db, has_failed_prereq, h]

/-- Witness for C9: skill 2, unlocked in `c9db`, remains unlocked in the
later store `c9db'`. -/
theorem c9_unlock_condition_monotone_witness :
    (2 : ℤ) ∈ get_unlocked_skills c9db' :=
  c9_unlock_condition_monotone c9db c9db' 2 rfl rfl (by decide)
    (by rw [c9_unlocked_eval]; decide)

/-! Mastery-update bookkeeping for C10. -/

/-- One submit pipeline run per entry: the sequence of `submit` operations. -/
def run_attempts (db : Db) (logs : List (AttemptLog × ℤ)) : Db :=
  logs.foldl (fun d p => process_attempt d p.1 p.2) db

lemma find?_map_key_preserving (l : List SkillStateRow)
    (f : SkillStateRow → SkillStateRow)
    (hf : ∀ r, (f r).skill_id = r.skill_id) (sid : ℤ) :
    (l.map f).find? (fun r => r.skill_id == sid)
      = (l.find? (fun r => r.skill_id == sid)).map f := by
  induction l with
  | nil => rfl
  | cons h t ih =>
    by_cases hp : h.skill_id = sid
    · have h1 : (((f h).skill_id == sid) = true) := by simp [hf, hp]
      have h2 : ((h.skill_id == sid) = true) := by simp [hp]
      simp [List.find?_cons, h1, h2]
    · have h1 : (((f h).skill_id == sid) = false) := by simp [hf, hp]
      have h2 : ((h.skill_id == sid) = false) := by simp [hp]
      simp [List.find?_cons, h1, h2, ih]

lemma get_skill_state_update (d : Db) (st : SkillMasteryState) (sid : ℤ) :
    get_skill_state (update_skill_state d st) sid
      = if (d.skill_state.find? (fun r => r.skill_id == sid)).isSome ∧ sid = st.skill_id
        then { skill_id := sid, mastery := st.mastery, attempts := st.attempts }
        else get_skill_state d sid := by
  unfold get_skill_state update_skill_state
  rw [find?_map_key_preserving _ _ (fun r => by split <;> rfl)]
  cases hf : d.skill_state.find? (fun r => r.skill_id == sid) with
  | none => simp [hf]
  | some r =>
    have hr : r.skill_id = sid := by
      have := List.find?_some hf
      simpa using this
    by_cases hst : sid = st.skill_id
    · simp [hf, Option.map_some', hr, hst]
    · have hb : (r.skill_id == st.skill_id) = false := by
        rw [hr]
        simp only [beq_eq_false_iff_ne, ne_eq]
        exact hst
      have hne : ¬(r.skill_id = st.skill_id) := by
        rw [hr]; exact hst
      simp [hf, Option.map_some', hb, hne, hr, hst]

lemma get_skill_state_mastery_step (delta : ℚ) (d : Db) (i sid : ℤ) :
    get_skill_state (mastery_step delta d i) sid
      = if (d.skill_state.find? (fun r => r.skill_id == sid)).isSome ∧ sid = i
        then { skill_id := sid,
               mastery := min (max ((get_skill_state d i).mastery + delta) 0) 1,
               attempts := (get_skill_state d i).attempts + 1 }
        else get_skill_state d sid :=
  get_skill_state_update d _ sid

lemma mastery_step_preserves_row (delta : ℚ) (d : Db) (i sid : ℤ) :
    ((mastery_step delta d i).skill_state.find?
        (fun r => r.skill_id == sid)).isSome
      = (d.skill_state.find? (fun r => r.skill_id == sid)).isSome := by
  unfold mastery_step update_skill_state
  rw [find?_map_key_preserving _ _ (fun r => by split <;> rfl)]
  simp

lemma mastery_fold_mono (delta : ℚ) (hdelta : 0 ≤ delta) (ids : List ℤ)
    (d : Db) (sid : ℤ) (h1 : (get_skill_state d sid).mastery ≤ 1) :
    (get_skill_state d sid).mastery
        ≤ (get_skill_state (ids.foldl (mastery_step delta) d) sid).mastery ∧
      (get_skill_state (ids.foldl (mastery_step delta) d) sid).mastery ≤ 1 := by
  induction ids generalizing d with
  | nil => exact ⟨le_refl _, h1⟩
  | cons i t ih =>
    rw [List.foldl_cons]
    have hstep := get_skill_state_mastery_step delta d i sid
    have hs1 : (get_skill_state d sid).mastery
        ≤ (get_skill_state (mastery_step delta d i) sid).mastery := by
      rw [hstep]
      split

      case isTrue hcond =>
        obtain ⟨-, h2⟩ := hcond
        dsimp only
        refine le_min (le_max_of_le_left ?_) (h2 ▸ h1)
        rw [h2]
        linarith
      case isFalse hcond => exact le_refl _
    have hs2 : (get_skill_state (mastery_step delta d i) sid).mastery ≤ 1 := by
      rw [hstep]
      split
      case isTrue hcond => exact min_le_right _ _
      case isFalse hcond => exact h1
    have hrest := ih (mastery_step delta d i) hs2
    exact ⟨le_trans hs1 hrest.1, hrest.2⟩

lemma mastery_fold_count (delta : ℚ) (ids : List ℤ) (d : Db) (sid : ℤ)
    (hrow : (d.skill_state.find? (fun r => r.skill_id == sid)).isSome = true) :
    (get_skill_state (ids.foldl (mastery_step delta) d) sid).attempts
      = (get_skill_state d sid).attempts + (ids.count sid : ℤ) := by
  induction ids generalizing d with
  | nil => simp
  | cons i t ih =>
    rw [List.foldl_cons, ih (mastery_step delta d i)
      (by rw [mastery_step_preserves_row]; exact hrow)]
    rw [get_skill_state_mastery_step]
    by_cases hi : sid = i
    · subst hi
      rw [if_pos ⟨hrow, rfl⟩, List.count_cons]
      simp only [beq_self_eq_true, if_true]
      push_cast
      ring
    · rw [if_neg (fun hc => hi hc.2), List.count_cons]
      have hb : (i == sid) = false := by
        simp only [beq_eq_false_iff_ne, ne_eq]
        exact fun hx => hi hx.symm
      rw [hb]
      simp

/-- C10: the mastery delta is non-negative for every attempt (fail included),
so a skill's mastery never decreases across any sequence of submit
operations (from any store where it is at most 1); and each submit bumps
the skill's attempts counter by exactly one per occurrence among the
resolved skill tags, fail or not. -/
theorem c10_mastery_monotone_attempts_increment :
    (∀ (db : Db) (log : AttemptLog) (difficulty : Difficulty),
      0 ≤ mastery_delta db log difficulty) ∧
    (∀ (logs : List (AttemptLog × ℤ)) (db : Db) (sid : ℤ),
      (get_skill_state db sid).mastery ≤ 1 →
      (get_skill_state db sid).mastery
        ≤ (get_skill_state (run_attempts db logs) sid).mastery ∧
      (get_skill_state (run_attempts db logs) sid).mastery ≤ 1) ∧
    (∀ (db : Db) (log : AttemptLog) (now sid : ℤ),
      (db.skill_state.find? (fun r => r.skill_id == sid)).isSome = true →
      (get_skill_state (process_attempt db log now) sid).attempts
        = (get_skill_state db sid).attempts
          + ((resolved_skill_ids db log.problem_id).count sid : ℤ)) := by
  have hdelta : ∀ (db : Db) (log : AttemptLog) (difficulty : Difficulty),
      0 ≤ mastery_delta db log difficulty := by
    intro db log difficulty
    unfold mastery_delta
    refine mul_nonneg (mul_nonneg (mul_nonneg ?_ ?_) ?_) ?_
    · norm_num [ALPHA]
    · cases difficulty <;>
        norm_num [difficulty_multiplier, DIFFICULTY_MULTIPLIER_EASY,
          DIFFICULTY_MULTIPLIER_MEDIUM, DIFFICULTY_MULTIPLIER_HARD]
    · simp only [performance_multiplier]
      split_ifs <;>
        norm_num [PERFORMANCE_MULTIPLIER_FAIL, PERFORMANCE_MULTIPLIER_NEW_GRIT,
          PERFORMANCE_MULTIPLIER_REVIEW, PERFORMANCE_MULTIPLIER_NEW_CLEAN]
    · unfold scaffolding_multiplier
      split <;> norm_num
  have hstep : ∀ (db : Db) (log : AttemptLog) (now sid : ℤ),
      (get_skill_state db sid).mastery ≤ 1 →
      (get_skill_state db sid).mastery
        ≤ (get_skill_state (process_attempt db log now) sid).mastery ∧
      (get_skill_state (process_attempt db log now) sid).mastery ≤ 1 := by
    intro db log now sid h1
    exact mastery_fold_mono _ (hdelta _ _ _) _ _ sid h1
  refine ⟨hdelta, ?_, ?_⟩
  · intro logs
    induction logs with
    | nil => exact fun db sid h1 => ⟨le_refl _, h1⟩
    | cons p t ih =>
      intro db sid h1
      have h2 := hstep db p.1 p.2 sid h1
      have h3 := ih (process_attempt db p.1 p.2) sid h2.2
      exact ⟨le_trans h2.1 h3.1, h3.2⟩
  · intro db log now sid hrow
    exact mastery_fold_count _ _ _ sid hrow

/-- Store for the C10 witness: one skill (id 5) at mastery 0, one Easy
problem (id 3) tagged with it. -/
def c10db : Db :=
  { skills := [5], skill_prereqs := [],
    problems := [⟨3, "p3", "P3", "u", "Easy"⟩], problem_skills := [⟨3, 5⟩],
    track_problems := [⟨1, 3⟩], alternatives := [], attempts := [],
    problem_state := [], skill_state := [⟨5, 0, 0⟩] }

/-- Witness for C10: a failed attempt on problem 3 leaves skill 5's mastery
non-decreasing and bumps its attempts counter per resolved tag occurrence. -/
theorem c10_mastery_monotone_attempts_increment_witness :
    ((get_skill_state c10db 5).mastery
        ≤ (get_skill_state (run_attempts c10db [(⟨3, 5, false, false, false⟩, 0)]) 5).mastery) ∧
    ((get_skill_state (process_attempt c10db ⟨3, 5, false, false, false⟩ 0) 5).attempts
        = (get_skill_state c10db 5).attempts
          + ((resolved_skill_ids c10db 3).count 5 : ℤ)) :=
  ⟨(c10_mastery_monotone_attempts_increment.2.1
      [(⟨3, 5, false, false, false⟩, 0)] c10db 5 (by decide)).1,
   c10_mastery_monotone_attempts_increment.2.2 c10db
      ⟨3, 5, false, false, false⟩ 0 5 (by decide)⟩

end LeetGraph
